import Mathlib

/-!
Verification of the "Pocket Ledger" expense-tracking component (src/src/App.jsx).

The component holds three pieces of state: the list of saved expenses, a draft
form object with two text fields, and an optional validation error message.
Four operations act on this state: `handleInputChange` (edit a draft field),
`addExpense` (validate and commit the draft), `deleteExpense` (remove by id)
and the derived `totalExpenses`.

Numbers are modelled by `ℚ`: every numeric value the component produces comes
from parsing a finite decimal string, and the claims under scrutiny are about
structure (which entries are in the ledger, in which order) and exact decimal
arithmetic, not about binary floating-point rounding.
-/

attribute [local semireducible] Rat.add Rat.mul Rat.inv Rat.sub Rat.ofScientific

namespace Expencie

/-- One committed expense record, as built in `addExpense` in App.jsx:
`{ id: Date.now(), name, amount: validatedAmount, timestamp: Date.now() }`. -/
structure Expense where
  id : Nat
  name : String
  amount : ℚ
  timestamp : Nat
  deriving DecidableEq, Repr

/-- The draft form state `newExpense = { name: '', amount: '' }`: two raw,
unvalidated text fields. -/
structure Draft where
  name : String
  amount : String
  deriving DecidableEq, Repr

/-- The whole component state: the `expenses` list, the `newExpense` draft and
the `error` message (`null` in the source is `none` here). -/
structure AppState where
  expenses : List Expense
  newExpense : Draft
  error : Option String
  deriving DecidableEq, Repr

/-- The two form fields, named `name` and `amount` in the rendered inputs;
`handleInputChange` dispatches on `e.target.name`, which is one of these. -/
inductive Field where
  | name
  | amount
  deriving DecidableEq, Repr

/-! ### A model of JavaScript parseFloat on finite decimal strings

`parseFloat` skips leading whitespace and then reads the longest leading
substring of the form sign, digits, point, digits, exponent (each part
optional, but at least one digit before the exponent); the rest of the string
is ignored.  It returns NaN (`none` here) when no digits are found.  The
special `Infinity` spelling, which no claim touches, is outside this model. -/

/-- Split a character list into its leading run of decimal digits and the
remainder. -/
def takeDigits : List Char → List Char × List Char
  | [] => ([], [])
  | c :: cs =>
    if c.isDigit then
      let p := takeDigits cs
      (c :: p.1, p.2)
    else ([], c :: cs)

/-- Drop leading whitespace characters, as parseFloat does before reading. -/
def skipWs : List Char → List Char
  | [] => []
  | c :: cs =>
    if c = ' ' ∨ c = '\t' ∨ c = '\n' ∨ c = '\r' then skipWs cs else c :: cs

/-- Numeric value of a digit run, most significant digit first. -/
def digitsVal (ds : List Char) : Nat :=
  ds.foldl (fun a c => 10 * a + (c.toNat - 48)) 0

/-- Read an optional leading sign; return the sign as `±1` and the rest. -/
def parseSign : List Char → ℚ × List Char
  | '-' :: cs => (-1, cs)
  | '+' :: cs => (1, cs)
  | cs => (1, cs)

/-- Read an optional exponent part (`e` or `E`, optional sign, digits) at the
front of the remainder; a bare `e` with no digits contributes exponent 0,
matching parseFloat, which then ignores the unconsumed tail. -/
def parseExponent : List Char → Int
  | c :: rest =>
    if c = 'e' ∨ c = 'E' then
      let p : Bool × List Char :=
        match rest with
        | '-' :: r => (true, r)
        | '+' :: r => (false, r)
        | r => (false, r)
      let ds := (takeDigits p.2).1
      if ds = [] then 0
      else if p.1 then -(digitsVal ds : Int) else (digitsVal ds : Int)
    else 0
  | [] => 0

/-- Scale a rational by a signed power of ten. -/
def applyExp (q : ℚ) (e : Int) : ℚ :=
  if 0 ≤ e then q * 10 ^ e.toNat else q / 10 ^ (-e).toNat

/-- JavaScript `parseFloat` on a string, with `none` standing for NaN. -/
def parseFloat (s : String) : Option ℚ :=
  let cs := skipWs s.data
  let sp := parseSign cs
  let ip := takeDigits sp.2
  let fp : List Char × List Char :=
    match ip.2 with
    | '.' :: rest => takeDigits rest
    | other => ([], other)
  if ip.1 = [] ∧ fp.1 = [] then none
  else
    let mantissa : ℚ := (digitsVal ip.1 : ℚ) + (digitsVal fp.1 : ℚ) / 10 ^ fp.1.length
    some (sp.1 * applyExp mantissa (parseExponent fp.2))

/-! ### The four operations -/

/-- The fixed message set by every failed validation in `addExpense`. -/
def validationMessage : String :=
  "Please enter a valid description and a positive amount."

/-- `handleInputChange`: `setNewExpense(prev => ({ ...prev, [name]: value }))` —
overwrite the one named draft field, keep everything else. -/
def handleInputChange (field : Field) (value : String) (s : AppState) : AppState :=
  match field with
  | Field.name => { s with newExpense := { s.newExpense with name := value } }
  | Field.amount => { s with newExpense := { s.newExpense with amount := value } }

/-- JavaScript `x || 0` on a number: `0` is falsy, every other number is
truthy.  (In `totalExpenses` the NaN case of `||` cannot arise: the stored
`amount` field is a number, and `parseFloat` of a finite number round-trips.) -/
def jsOrZero (q : ℚ) : ℚ :=
  if q = 0 then 0 else q

/-- `totalExpenses`: `expenses.reduce((acc, e) => acc + (parseFloat(e.amount) || 0), 0)`.
`parseFloat` applied to the stored numeric `amount` is the identity, so only
the `|| 0` fallback remains visible in the model. -/
def totalExpenses (expenses : List Expense) : ℚ :=
  expenses.foldl (fun acc e => acc + jsOrZero e.amount) 0

/-- `addExpense`: parse `newExpense.amount`; if `!name || isNaN(v) || v <= 0`
set the validation message and stop; otherwise prepend the new record, clear
the draft and clear the error.  `now` stands for `Date.now()`, used for both
`id` and `timestamp`. -/
def addExpense (now : Nat) (s : AppState) : AppState :=
  match parseFloat s.newExpense.amount with
  | none => { s with error := some validationMessage }
  | some v =>
    if s.newExpense.name = "" ∨ v ≤ 0 then
      { s with error := some validationMessage }
    else
      { expenses :=
          { id := now, name := s.newExpense.name, amount := v, timestamp := now }
            :: s.expenses,
        newExpense := { name := "", amount := "" },
        error := none }

/-- `deleteExpense`: `setExpenses(prev => prev.filter(exp => exp.id !== id))`. -/
def deleteExpense (id : Nat) (s : AppState) : AppState :=
  { s with expenses := s.expenses.filter (fun e => e.id != id) }

/-- A draft passes the validation in `addExpense` exactly when the name is
non-empty and the amount parses to a number strictly greater than 0. -/
def validDraft (d : Draft) : Bool :=
  d.name ≠ "" &&
    match parseFloat d.amount with
    | some q => 0 < q
    | none => false

/-- The three user actions the component reacts to. -/
inductive Action where
  | edit (field : Field) (value : String)
  | submit (now : Nat)
  | delete (id : Nat)
  deriving DecidableEq, Repr

/-- Apply one user action to the state. -/
def applyAction (s : AppState) : Action → AppState
  | Action.edit f v => handleInputChange f v s
  | Action.submit now => addExpense now s
  | Action.delete id => deleteExpense id s

/-- Run a sequence of user actions from a starting state. -/
def runActions (acts : List Action) (s : AppState) : AppState :=
  acts.foldl applyAction s

/-- The initial state: empty ledger, empty draft, no error. -/
def initialState : AppState :=
  { expenses := [], newExpense := { name := "", amount := "" }, error := none }

example : parseFloat ("12.50") = some (25 / 2) := by decide
example : parseFloat ("abc") = none := by decide
example : parseFloat ("-5") = some (-5) := by decide
example : parseFloat ("0") = some 0 := by decide
example : parseFloat ("1e3") = some 1000 := by decide
example : parseFloat (" 2.5e-1xyz") = some (1 / 4) := by decide
example : parseFloat (".5") = some (1 / 2) := by decide
example : parseFloat (".") = none := by decide

/-! ### Helper lemmas -/

/-- JavaScript `x || 0` is the identity on numbers (`0 || 0` is still `0`). -/
theorem jsOrZero_eq (q : ℚ) : jsOrZero q = q := by
  by_cases h : q = 0 <;> simp [jsOrZero, h]

/-- The fold inside `totalExpenses`, generalized over the accumulator. -/
theorem totalExpenses_foldl (l : List Expense) (acc : ℚ) :
    l.foldl (fun a e => a + jsOrZero e.amount) acc = acc + (l.map Expense.amount).sum := by
  induction l generalizing acc with
  | nil => simp
  | cons e t ih =>
    rw [List.foldl_cons, ih, jsOrZero_eq]
    simp [add_assoc]

/-- C3: `totalExpenses` is the sum of the `amount` fields of all entries, it is
`0` on the empty ledger, and it is a pure function of the ledger value. -/
theorem claim_c3_total (l : List Expense) :
    totalExpenses l = (l.map Expense.amount).sum ∧ totalExpenses ([] : List Expense) = 0 := by
  constructor
  · rw [totalExpenses, totalExpenses_foldl, zero_add]
  · rfl

/-- C5: deleting the same id twice yields the same ledger as deleting it once;
the second `deleteExpense` call is a no-op. -/
theorem claim_c5_delete_idempotent (s : AppState) (id : Nat) :
    deleteExpense id (deleteExpense id s) = deleteExpense id s := by
  unfold deleteExpense
  simp [List.filter_filter]

/-- C7: `handleInputChange` overwrites exactly the named draft field with the
given value and leaves the other draft field, the ledger and the error alone;
it accepts any string, with no validation. -/
theorem claim_c7_update_field (s : AppState) (v : String) :
    handleInputChange Field.name v s =
      { s with newExpense := { s.newExpense with name := v } } ∧
    handleInputChange Field.amount v s =
      { s with newExpense := { s.newExpense with amount := v } } ∧
    ∀ f : Field, (handleInputChange f v s).expenses = s.expenses ∧
      (handleInputChange f v s).error = s.error := by
  refine ⟨rfl, rfl, ?_⟩
  intro f
  cases f <;> exact ⟨rfl, rfl⟩

/-- C1: on a draft with a non-empty name whose amount parses to a number
strictly greater than 0, `addExpense` prepends a new `Expense` carrying the
parsed amount and the verbatim draft name, resets the draft to two empty
strings, and clears any existing error. -/
theorem claim_c1_submit_valid (s : AppState) (now : Nat) (q : ℚ)
    (hname : s.newExpense.name ≠ "")
    (hparse : parseFloat s.newExpense.amount = some q)
    (hpos : 0 < q) :
    addExpense now s =
      { expenses :=
          { id := now, name := s.newExpense.name, amount := q, timestamp := now }
            :: s.expenses,
        newExpense := { name := "", amount := "" },
        error := none } := by
  unfold addExpense
  rw [hparse]
  have hcond : ¬(s.newExpense.name = "" ∨ q ≤ 0) := by
    push_neg
    exact ⟨hname, hpos⟩
  dsimp only
  rw [if_neg hcond]

/-- Witness for C1: submitting the draft `{name: "Lunch", amount: "12.50"}`
over an empty ledger with a stale error yields the one-entry ledger
`[{id: 7, name: "Lunch", amount: 12.5, timestamp: 7}]`, an empty draft and no
error. -/
theorem claim_c1_submit_valid_witness :
    addExpense 7
        { expenses := [],
          newExpense := { name := "Lunch", amount := "12.50" },
          error := some validationMessage } =
      { expenses := [{ id := 7, name := "Lunch", amount := 25 / 2, timestamp := 7 }],
        newExpense := { name := "", amount := "" },
        error := none } :=
  claim_c1_submit_valid
    { expenses := [],
      newExpense := { name := "Lunch", amount := "12.50" },
      error := some validationMessage }
    7 (25 / 2) (by decide) (by decide) (by decide)

/-- C2: when the draft name is empty, or the amount fails to parse, or the
parsed amount is at most 0, `addExpense` sets the validation error and leaves
the ledger unchanged. -/
theorem claim_c2_submit_invalid (s : AppState) (now : Nat)
    (h : s.newExpense.name = "" ∨ parseFloat s.newExpense.amount = none ∨
      ∃ q, parseFloat s.newExpense.amount = some q ∧ q ≤ 0) :
    (addExpense now s).error = some validationMessage ∧
      (addExpense now s).expenses = s.expenses := by
  unfold addExpense
  cases hp : parseFloat s.newExpense.amount with
  | none => exact ⟨rfl, rfl⟩
  | some v =>
    dsimp only
    rcases h with hn | hnone | ⟨q, hq, hq0⟩
    · rw [if_pos (Or.inl hn)]
      exact ⟨rfl, rfl⟩
    · rw [hp] at hnone
      cases hnone
    · rw [hp] at hq
      injection hq with hq
      subst hq
      rw [if_pos (Or.inr hq0)]
      exact ⟨rfl, rfl⟩

/-- Witness for C2: submitting the draft `{name: "", amount: "5"}` sets the
validation message and leaves the ledger `[{id: 1, name: "A", amount: 3,
timestamp: 1}]` exactly as it was. -/
theorem claim_c2_submit_invalid_witness :
    (addExpense 9
        { expenses := [{ id := 1, name := "A", amount := 3, timestamp := 1 }],
          newExpense := { name := "", amount := "5" },
          error := none }).error = some validationMessage ∧
    (addExpense 9
        { expenses := [{ id := 1, name := "A", amount := 3, timestamp := 1 }],
          newExpense := { name := "", amount := "5" },
          error := none }).expenses =
      [{ id := 1, name := "A", amount := 3, timestamp := 1 }] :=
  claim_c2_submit_invalid
    { expenses := [{ id := 1, name := "A", amount := 3, timestamp := 1 }],
      newExpense := { name := "", amount := "5" },
      error := none }
    9 (Or.inl (by decide))

/-- `validDraft` holds exactly when the name is non-empty and the amount
parses to a strictly positive number. -/
theorem validDraft_iff (d : Draft) :
    validDraft d = true ↔
      d.name ≠ "" ∧ ∃ q, parseFloat d.amount = some q ∧ 0 < q := by
  unfold validDraft
  cases hp : parseFloat d.amount with
  | none => simp
  | some q =>
    constructor
    · intro h
      simp only [Bool.and_eq_true, decide_eq_true_eq] at h
      exact ⟨h.1, q, rfl, h.2⟩
    · rintro ⟨hn, q', hq', hpos⟩
      injection hq' with hq'
      subst hq'
      simp [hn, hpos]

/-- A failed validation in `addExpense` only writes the error message: the
whole rest of the state is returned as it was. -/
theorem addExpense_of_invalid (s : AppState) (now : Nat)
    (h : validDraft s.newExpense = false) :
    addExpense now s = { s with error := some validationMessage } := by
  unfold validDraft at h
  unfold addExpense
  cases hp : parseFloat s.newExpense.amount with
  | none => rfl
  | some q =>
    rw [hp] at h
    dsimp only at h ⊢
    simp only [Bool.and_eq_false_iff, decide_eq_false_iff_not] at h
    have hcond : s.newExpense.name = "" ∨ q ≤ 0 := by
      rcases h with h | h
      · exact Or.inl (not_not.mp h)
      · exact Or.inr (not_lt.mp h)
    rw [if_pos hcond]

/-- A successful validation in `addExpense` commits the parsed amount: the new
record is prepended, the draft and the error are cleared. -/
theorem addExpense_of_valid (s : AppState) (now : Nat)
    (h : validDraft s.newExpense = true) :
    ∃ q, parseFloat s.newExpense.amount = some q ∧ 0 < q ∧
      addExpense now s =
        { expenses :=
            { id := now, name := s.newExpense.name, amount := q, timestamp := now }
              :: s.expenses,
          newExpense := { name := "", amount := "" },
          error := none } := by
  obtain ⟨hn, q, hp, hpos⟩ := (validDraft_iff s.newExpense).mp h
  refine ⟨q, hp, hpos, ?_⟩
  unfold addExpense
  rw [hp]
  dsimp only
  rw [if_neg]
  push_neg
  exact ⟨hn, hpos⟩

/-- C4: `deleteExpense` removes the one entry carrying the given id while
keeping every other entry in its relative order, and is a perfect no-op on the
whole state when no entry has that id. -/
theorem claim_c4_delete (s : AppState) (id : Nat) :
    ((∀ e ∈ s.expenses, e.id ≠ id) → deleteExpense id s = s) ∧
    (∀ l₁ (e : Expense) l₂, s.expenses = l₁ ++ e :: l₂ → e.id = id →
      (∀ x ∈ l₁, x.id ≠ id) → (∀ x ∈ l₂, x.id ≠ id) →
      (deleteExpense id s).expenses = l₁ ++ l₂) := by
  constructor
  · intro hall
    unfold deleteExpense
    have hf : s.expenses.filter (fun e => e.id != id) = s.expenses :=
      List.filter_eq_self.mpr (fun e he => by simpa using hall e he)
    rw [hf]
  · intro l₁ e l₂ hsplit hid h1 h2
    show s.expenses.filter (fun x => x.id != id) = l₁ ++ l₂
    have e1 : l₁.filter (fun x => x.id != id) = l₁ :=
      List.filter_eq_self.mpr (fun x hx => by simpa using h1 x hx)
    have e2 : l₂.filter (fun x => x.id != id) = l₂ :=
      List.filter_eq_self.mpr (fun x hx => by simpa using h2 x hx)
    rw [hsplit, List.filter_append, e1, List.filter_cons]
    simp [hid, e2]

/-- Witness for C4: on the ledger `[A(id 1), B(id 2), C(id 3)]`, deleting id 2
yields `[A, C]`. -/
theorem claim_c4_delete_witness :
    (deleteExpense 2
        { expenses :=
            [{ id := 1, name := "A", amount := 1, timestamp := 1 },
             { id := 2, name := "B", amount := 2, timestamp := 2 },
             { id := 3, name := "C", amount := 3, timestamp := 3 }],
          newExpense := { name := "", amount := "" },
          error := none }).expenses =
      [{ id := 1, name := "A", amount := 1, timestamp := 1 },
       { id := 3, name := "C", amount := 3, timestamp := 3 }] :=
  (claim_c4_delete
      { expenses :=
          [{ id := 1, name := "A", amount := 1, timestamp := 1 },
           { id := 2, name := "B", amount := 2, timestamp := 2 },
           { id := 3, name := "C", amount := 3, timestamp := 3 }],
        newExpense := { name := "", amount := "" },
        error := none }
      2).2
    [{ id := 1, name := "A", amount := 1, timestamp := 1 }]
    { id := 2, name := "B", amount := 2, timestamp := 2 }
    [{ id := 3, name := "C", amount := 3, timestamp := 3 }]
    rfl rfl (by decide) (by decide)

/-- C6: editing a field or deleting an entry never touches the error, a failed
submission writes the validation message, and only a successful submission
resets it to `none`. -/
theorem claim_c6_error_lifecycle (s : AppState) (f : Field) (v : String)
    (id : Nat) (now : Nat) :
    (handleInputChange f v s).error = s.error ∧
    (deleteExpense id s).error = s.error ∧
    (validDraft s.newExpense = true → (addExpense now s).error = none) ∧
    (validDraft s.newExpense = false →
      (addExpense now s).error = some validationMessage) := by
  refine ⟨?_, rfl, ?_, ?_⟩
  · cases f <;> rfl
  · intro h
    obtain ⟨q, _, _, heq⟩ := addExpense_of_valid s now h
    rw [heq]
  · intro h
    rw [addExpense_of_invalid s now h]

/-- Witness for C6: after the failed submission of the draft
`{name: "Food", amount: "abc"}`, the stale error set by an earlier failure is
overwritten with the validation message (and not cleared). -/
theorem claim_c6_error_lifecycle_witness :
    (addExpense 5
        { expenses := [],
          newExpense := { name := "Food", amount := "abc" },
          error := some validationMessage }).error = some validationMessage :=
  (claim_c6_error_lifecycle
      { expenses := [],
        newExpense := { name := "Food", amount := "abc" },
        error := some validationMessage }
      Field.name ("x") 0 5).2.2.2 (by decide)

/-- C10: every failed submission writes the one fixed message
"Please enter a valid description and a positive amount.", whichever of the
three validation conditions failed. -/
theorem claim_c10_single_message (s : AppState) (now : Nat)
    (h : validDraft s.newExpense = false) :
    (addExpense now s).error =
      some ("Please enter a valid description and a positive amount.") := by
  rw [addExpense_of_invalid s now h]
  rfl

/-- Witness for C10: the draft `{name: "", amount: "-5"}` fails validation and
produces exactly the fixed message. -/
theorem claim_c10_single_message_witness :
    (addExpense 4
        { expenses := [],
          newExpense := { name := "", amount := "-5" },
          error := none }).error =
      some ("Please enter a valid description and a positive amount.") :=
  claim_c10_single_message
    { expenses := [],
      newExpense := { name := "", amount := "-5" },
      error := none }
    4 (by decide)

/-- C8: adding to the ledger happens only through submission — an edit leaves
the ledger identical and a delete never lengthens it — and submission is
atomic: on failure the ledger and the draft are both untouched (only the error
changes), on success exactly one entry is added. -/
theorem claim_c8_submit_only_addition (s : AppState) (f : Field) (v : String)
    (id : Nat) (now : Nat) :
    (handleInputChange f v s).expenses = s.expenses ∧
    ((deleteExpense id s).expenses).length ≤ s.expenses.length ∧
    (validDraft s.newExpense = false →
      (addExpense now s).expenses = s.expenses ∧
      (addExpense now s).newExpense = s.newExpense) ∧
    (validDraft s.newExpense = true →
      ((addExpense now s).expenses).length = s.expenses.length + 1) := by
  refine ⟨?_, ?_, ?_, ?_⟩
  · cases f <;> rfl
  · exact List.length_filter_le _ _
  · intro h
    rw [addExpense_of_invalid s now h]
    exact ⟨rfl, rfl⟩
  · intro h
    obtain ⟨q, _, _, heq⟩ := addExpense_of_valid s now h
    rw [heq]
    rfl

/-- Witness for C8: the failed submission of `{name: "", amount: "1"}` leaves
both the one-entry ledger and the draft exactly as they were. -/
theorem claim_c8_submit_only_addition_witness :
    (addExpense 9
        { expenses := [{ id := 1, name := "A", amount := 3, timestamp := 1 }],
          newExpense := { name := "", amount := "1" },
          error := none }).expenses =
      [{ id := 1, name := "A", amount := 3, timestamp := 1 }] ∧
    (addExpense 9
        { expenses := [{ id := 1, name := "A", amount := 3, timestamp := 1 }],
          newExpense := { name := "", amount := "1" },
          error := none }).newExpense = { name := "", amount := "1" } :=
  (claim_c8_submit_only_addition
      { expenses := [{ id := 1, name := "A", amount := 3, timestamp := 1 }],
        newExpense := { name := "", amount := "1" },
        error := none }
      Field.name ("x") 0 9).2.2.1 (by decide)

/-- Every entry of the ledger has a strictly positive amount and a non-empty
name. -/
def goodLedger (l : List Expense) : Prop :=
  ∀ e ∈ l, 0 < e.amount ∧ e.name ≠ ""

/-- One user action preserves `goodLedger`. -/
theorem applyAction_good (s : AppState) (a : Action)
    (h : goodLedger s.expenses) : goodLedger (applyAction s a).expenses := by
  cases a with
  | edit f v => cases f <;> exact h
  | submit now =>
    show goodLedger (addExpense now s).expenses
    cases hv : validDraft s.newExpense with
    | false =>
      rw [addExpense_of_invalid s now hv]
      exact h
    | true =>
      obtain ⟨q, _, hpos, heq⟩ := addExpense_of_valid s now hv
      obtain ⟨hn, _⟩ := (validDraft_iff s.newExpense).mp hv
      rw [heq]
      intro e he
      rcases List.mem_cons.mp he with he | he
      · subst he
        exact ⟨hpos, hn⟩
      · exact h e he
  | delete id =>
    intro e he
    exact h e (List.mem_of_mem_filter he)

/-- A whole action sequence preserves `goodLedger`. -/
theorem runActions_good (acts : List Action) (s : AppState)
    (h : goodLedger s.expenses) : goodLedger (runActions acts s).expenses := by
  induction acts generalizing s with
  | nil => exact h
  | cons a t ih => exact ih (applyAction s a) (applyAction_good s a h)

/-- C9: in every state reachable from the initial state by any sequence of
edit, submit and delete actions, every ledger entry has a strictly positive
amount and a non-empty name. -/
theorem claim_c9_reachable_invariant (acts : List Action) (e : Expense)
    (he : e ∈ (runActions acts initialState).expenses) :
    0 < e.amount ∧ e.name ≠ "" :=
  runActions_good acts initialState (fun x hx => absurd hx (List.not_mem_nil x)) e he

/-- Witness for C9: after editing the draft to `{name: "Lunch", amount:
"12.50"}` and submitting at instant 7, the resulting ledger entry indeed has a
positive amount and a non-empty name. -/
theorem claim_c9_reachable_invariant_witness :
    0 < ({ id := 7, name := "Lunch", amount := 25 / 2, timestamp := 7 } : Expense).amount ∧
    ({ id := 7, name := "Lunch", amount := 25 / 2, timestamp := 7 } : Expense).name ≠ "" :=
  claim_c9_reachable_invariant
    [Action.edit Field.name ("Lunch"), Action.edit Field.amount ("12.50"),
      Action.submit 7]
    { id := 7, name := "Lunch", amount := 25 / 2, timestamp := 7 }
    (by decide)

end Expencie
